import Mathlib

/-!
Verification of the infinite-scroll pagination and bulk-selection subsystem of
the BijutsuBase web client, as implemented in
`clients/bijutsubase-web/src/lib/components/SearchGrid.svelte`,
`SelectionManager.svelte` and `BulkEditModal.svelte`, against its
natural-language specification.

The Svelte component state (`$state` runes) is embedded as an explicit record
`GridState`; each `async` handler is split at its `await` points into a
"start" segment and a "resume" segment (the continuation run when the network
response arrives), so that interleaved executions of the single-threaded event
loop can be replayed as plain function composition.  The network is an oracle:
a `FetchResult` value supplied to the resume segment.
-/

namespace BijutsuBase

/-- `FileThumb` from `api.ts`: an item of the search result list. -/
structure FileThumb where
  sha256_hash : String
  thumbnail_url : String
deriving DecidableEq, Repr

/-- `FileSearchResponse` from `api.ts`: payload of a successful
`GET /api/files/search` request. -/
structure FileSearchResponse where
  items : List FileThumb
  next_cursor : Option String
  has_more : Bool
deriving DecidableEq, Repr

/-- Outcome of one `searchFiles` call: the parsed response on success, or the
thrown error message (`Search failed: ...`) on failure. -/
inductive FetchResult where
  | ok (r : FileSearchResponse)
  | err (msg : String)
deriving DecidableEq, Repr

/-- The mutable component state of `SearchGrid.svelte` (its `$state` runes),
together with the `tags`/`sort` props the fetches read. -/
structure GridState where
  tags : String
  sort : String
  files : List FileThumb
  loading : Bool
  error : Option String
  fetching : Bool
  hasMore : Bool
  nextCursor : Option String
  isSelectMode : Bool
  selectedFiles : Finset String
  lightboxOpen : Bool
  lightboxIndex : Nat
deriving DecidableEq

namespace GridState

/-- `fetchInitialResults` up to its `await searchFiles(tags, sort)`:
the early return when `tags` is falsy, otherwise the synchronous resets
before the request is issued.  The boolean records whether a network
request was issued. -/
def fetchInitialStart (s : GridState) : GridState × Bool :=
  if s.tags = "" then
    ({ s with loading := false, files := [], nextCursor := none, hasMore := false }, false)
  else
    ({ s with loading := true, error := none, files := [],
              nextCursor := none, hasMore := false }, true)

/-- The continuation of `fetchInitialResults` after `await searchFiles`:
the `try` body on success, the `catch` on failure, the `finally` in both. -/
def fetchInitialResume (s : GridState) : FetchResult → GridState
  | .ok r =>
    { s with files := r.items, nextCursor := r.next_cursor,
             hasMore := r.has_more, loading := false }
  | .err m =>
    { s with error := some m, loading := false }

/-- `fetchMoreItems` up to its `await searchFiles(tags, sort, nextCursor)`:
the guard `if (!tags || fetching || !hasMore || !nextCursor) return;` and the
`fetching = true` write.  The boolean records whether a request was issued. -/
def fetchMoreStart (s : GridState) : GridState × Bool :=
  if s.tags = "" ∨ s.fetching = true ∨ s.hasMore = false ∨ s.nextCursor = none then
    (s, false)
  else
    ({ s with fetching := true }, true)

/-- The continuation of `fetchMoreItems` after `await searchFiles`: appends the
page on success, logs `console.error` on failure (returned as the optional log
line), and resets `fetching` in the `finally`. -/
def fetchMoreResume (s : GridState) : FetchResult → GridState × Option String
  | .ok r =>
    ({ s with files := s.files ++ r.items, nextCursor := r.next_cursor,
              hasMore := r.has_more, fetching := false }, none)
  | .err m =>
    ({ s with fetching := false }, some ("Failed to fetch more items: " ++ m))

/-- A whole `fetchInitialResults` call run without interleaving: the start
segment, then — when a request was issued — the resume segment applied to the
oracle's response. -/
def fetchInitialResults (s : GridState) (res : FetchResult) : GridState :=
  if s.fetchInitialStart.2 = true then s.fetchInitialStart.1.fetchInitialResume res
  else s.fetchInitialStart.1

/-- A whole `fetchMoreItems` call run without interleaving; also yields the
`console.error` line, when one was printed. -/
def fetchMoreItems (s : GridState) (res : FetchResult) : GridState × Option String :=
  if s.fetchMoreStart.2 = true then s.fetchMoreStart.1.fetchMoreResume res
  else (s.fetchMoreStart.1, none)

/-- `openLightbox(index)`. -/
def openLightbox (s : GridState) (index : Nat) : GridState :=
  { s with lightboxIndex := index, lightboxOpen := true }

/-- `handleLongPress(file)`: entering select mode seeds the selection with the
pressed item's hash; a long-press while already in select mode does nothing. -/
def handleLongPress (s : GridState) (file : FileThumb) : GridState :=
  if s.isSelectMode = false then
    { s with isSelectMode := true, selectedFiles := {file.sha256_hash} }
  else s

/-- `toggleSelection(file, index)`: in select mode, toggles the hash in the
selected set and leaves select mode when the set becomes empty; outside select
mode, opens the lightbox at `index`. -/
def toggleSelection (s : GridState) (file : FileThumb) (index : Nat) : GridState :=
  if s.isSelectMode = true then
    let newSet :=
      if file.sha256_hash ∈ s.selectedFiles then
        s.selectedFiles.erase file.sha256_hash
      else
        insert file.sha256_hash s.selectedFiles
    let s1 := { s with selectedFiles := newSet }
    if s1.selectedFiles.card = 0 then { s1 with isSelectMode := false } else s1
  else
    s.openLightbox index

/-- `exitSelectMode()` from `SelectionManager.svelte`. -/
def exitSelectMode (s : GridState) : GridState :=
  { s with isSelectMode := false, selectedFiles := ∅ }

/-- `handleFilesDeleted(deletedHashes)`: prunes the deleted hashes from the
visible list. -/
def handleFilesDeleted (s : GridState) (deletedHashes : Finset String) : GridState :=
  { s with files := s.files.filter (fun t => t.sha256_hash ∉ deletedHashes) }

/-- `str.split(' ')` on the character list: splits on every single space,
keeping empty pieces, as the JavaScript `String.prototype.split` does
(`"a  b".split(' ') = ["a","","b"]`, `"".split(' ') = [""]`). -/
def splitOnSpace : List Char → List (List Char)
  | [] => [[]]
  | c :: cs =>
      match splitOnSpace cs with
      | [] => [[]]
      | p :: ps => if c = ' ' then [] :: p :: ps else (c :: p) :: ps

/-- Truthiness of `t.trim()` in JavaScript: the string holds at least one
non-whitespace character. -/
def jsTrimNonempty (t : String) : Bool :=
  t.data.any (fun c => !c.isWhitespace)

/-- `tags.split(' ').filter(t => t.trim())`: the current search tags, split
on single spaces, keeping only the pieces whose trim is non-empty. -/
def currentSearchTags (tags : String) : List String :=
  ((splitOnSpace tags.data).map (fun cs => String.mk cs)).filter jsTrimNonempty

/-- `handleBulkEdit(changes)`: if any removed tag occurs among the current
search tags, every currently selected file is pruned from the visible list;
in all cases the selection is cleared and select mode exited. -/
def handleBulkEdit (s : GridState) (removedTags : Finset String) : GridState :=
  let hasConflict := (currentSearchTags s.tags).any (fun t => t ∈ removedTags)
  let files' :=
    if hasConflict then s.files.filter (fun t => t.sha256_hash ∉ s.selectedFiles)
    else s.files
  { s with files := files', selectedFiles := ∅, isSelectMode := false }

/-- `handleDeleteConfirm()` from `SelectionManager.svelte`, with the per-hash
outcome of `deleteFile` given by the oracle `ok`.  `Promise.all` resolves only
when every delete succeeded; it rejects if any delete rejected, in which case
the `catch` runs (`console.error` + `alert`, the returned message) and neither
`onFilesDeleted` nor `exitSelectMode` is invoked. -/
def handleDeleteConfirm (s : GridState) (ok : String → Bool) :
    GridState × Option String :=
  if ∀ h ∈ s.selectedFiles, ok h = true then
    ((s.handleFilesDeleted s.selectedFiles).exitSelectMode, none)
  else
    (s, some "Failed to delete some files")

end GridState

/-- The `rows` derivation of `SearchGrid.svelte`:
`for (let i = 0; i < files.length; i += itemsPerRow) result.push(files.slice(i, i + itemsPerRow))`.
Each iteration takes the next `itemsPerRow` files; the loop ends when the
remaining list is empty.  The component only ever sets `itemsPerRow` to
3, 4, 6 or 8 (never 0, where the source loop would not advance), so the
`k = 0` case is mapped to the empty result to keep the function total. -/
def rowsOf : List FileThumb → Nat → List (List FileThumb)
  | _, 0 => []
  | [], _ + 1 => []
  | f :: fs, k + 1 =>
      (f :: fs).take (k + 1) :: rowsOf ((f :: fs).drop (k + 1)) (k + 1)
termination_by files _ => files.length
decreasing_by
  simp only [List.length_drop, List.length_cons]
  omega

/-! ### Concrete items used in witnesses and counterexamples -/

/-- A concrete thumbnail used in witnesses. -/
def thumbA : FileThumb := ⟨"hashA", "thumbA.jpg"⟩

/-- A concrete thumbnail used in witnesses. -/
def thumbB : FileThumb := ⟨"hashB", "thumbB.jpg"⟩

/-- A concrete thumbnail used in witnesses. -/
def thumbC : FileThumb := ⟨"hashC", "thumbC.jpg"⟩

/-- A concrete thumbnail used in witnesses. -/
def thumbD : FileThumb := ⟨"hashD", "thumbD.jpg"⟩

/-- A concrete thumbnail used in witnesses. -/
def thumbE : FileThumb := ⟨"hashE", "thumbE.jpg"⟩

/-! ### Row grouping (claim C9) -/

theorem ceil_div_step (m k : Nat) (hm : 0 < m) (hk : 0 < k) :
    (m - k + k - 1) / k + 1 = (m + k - 1) / k := by
  rcases le_or_lt m k with h | h
  · have h0 : m - k = 0 := by omega
    rw [h0]
    have h1 : (0 + k - 1) / k = 0 := Nat.div_eq_of_lt (by omega)
    have h2 : (m + k - 1) / k = 1 := Nat.div_eq_of_lt_le (by omega) (by omega)
    rw [h1, h2]
  · have h0 : m - k + k - 1 = m - 1 := by omega
    have h1 : m + k - 1 = (m - 1) + k := by omega
    rw [h0, h1, Nat.add_div_right _ hk]

theorem rowsOf_ne_nil (f : FileThumb) (fs : List FileThumb) (k : Nat) :
    rowsOf (f :: fs) (k + 1) ≠ [] := by
  simp [rowsOf]

theorem rowsOf_flatten (files : List FileThumb) (k : Nat) (hk : 0 < k) :
    (rowsOf files k).flatten = files := by
  induction files, k using rowsOf.induct with
  | case1 files => omega
  | case2 k => simp [rowsOf]
  | case3 f fs k ih =>
      simp only [rowsOf, List.flatten_cons]
      rw [ih (Nat.succ_pos k), List.take_append_drop]

theorem rowsOf_length (files : List FileThumb) (k : Nat) (hk : 0 < k) :
    (rowsOf files k).length = (files.length + k - 1) / k := by
  induction files, k using rowsOf.induct with
  | case1 files => omega
  | case2 k => simp [rowsOf, Nat.div_eq_of_lt]
  | case3 f fs k ih =>
      simp only [rowsOf, List.length_cons]
      rw [ih (Nat.succ_pos k)]
      simp only [List.length_drop, List.length_cons]
      exact ceil_div_step (fs.length + 1) (k + 1) (Nat.succ_pos _) (Nat.succ_pos _)

theorem rowsOf_dropLast_length (files : List FileThumb) (k : Nat) (hk : 0 < k) :
    ∀ r ∈ (rowsOf files k).dropLast, r.length = k := by
  induction files, k using rowsOf.induct with
  | case1 files => omega
  | case2 k => simp [rowsOf]
  | case3 f fs k ih =>
      simp only [rowsOf]
      rcases hrest : List.drop (k + 1) (f :: fs) with _ | ⟨d, ds⟩
      · simp [rowsOf]
      · rw [← hrest]
        have hne : rowsOf (List.drop (k + 1) (f :: fs)) (k + 1) ≠ [] := by
          rw [hrest]; exact rowsOf_ne_nil d ds k
        rw [List.dropLast_cons_of_ne_nil hne]
        intro r hr
        rcases List.mem_cons.mp hr with h | h
        · subst h
          have hlen : k + 1 < fs.length + 1 := by
            have h := congrArg List.length hrest
            simp at h
            omega
          simp [List.length_take]
          omega
        · exact ih (Nat.succ_pos k) r h

theorem rowsOf_getLast_length (files : List FileThumb) (k : Nat) (hk : 0 < k) :
    ∀ L, (rowsOf files k).getLast? = some L →
      L.length = if files.length % k = 0 then k else files.length % k := by
  induction files, k using rowsOf.induct with
  | case1 files => omega
  | case2 k => simp [rowsOf]
  | case3 f fs k ih =>
      intro L hL
      rw [rowsOf] at hL
      rcases hrest : List.drop (k + 1) (f :: fs) with _ | ⟨d, ds⟩
      · have hnil : rowsOf (List.drop (k + 1) (f :: fs)) (k + 1) = [] := by
          rw [hrest]; simp [rowsOf]
        rw [hnil] at hL
        simp only [List.getLast?_singleton, Option.some.injEq] at hL
        subst hL
        have hlen : fs.length + 1 ≤ k + 1 := by
          have h := congrArg List.length hrest
          simp at h
          omega
        rcases Nat.lt_or_ge (fs.length + 1) (k + 1) with h | h
        · rw [List.length_take]
          simp only [List.length_cons]
          rw [Nat.mod_eq_of_lt (by omega)]
          split <;> omega
        · have heq : fs.length + 1 = k + 1 := by omega
          rw [List.length_take]
          simp only [List.length_cons, heq, Nat.mod_self]
          simp
      · have hne : rowsOf (List.drop (k + 1) (f :: fs)) (k + 1) ≠ [] := by
          rw [hrest]; exact rowsOf_ne_nil d ds k
        rcases hrows : rowsOf (List.drop (k + 1) (f :: fs)) (k + 1) with _ | ⟨x, xs⟩
        · exact absurd hrows hne
        · rw [hrows, List.getLast?_cons_cons] at hL
          have hres := ih (Nat.succ_pos k) L (by rw [hrows]; exact hL)
          have hlen : k + 1 < fs.length + 1 := by
            have h := congrArg List.length hrest
            simp at h
            omega
          rw [List.length_drop] at hres
          simp only [List.length_cons] at hres
          have hmod : (fs.length + 1) % (k + 1) = (fs.length + 1 - (k + 1)) % (k + 1) :=
            Nat.mod_eq_sub_mod (by omega)
          simp only [List.length_cons, hmod]
          exact hres

/-- C9. Row grouping correctness: for every items list and every
`itemsPerRow = k ≥ 1`, the `rows` derivation produces `⌈len(items)/k⌉` rows,
every row except possibly the last has length exactly `k`, the last row has
length `len(items) mod k` when that is non-zero (and `k` when it is zero),
and concatenating all rows in order reproduces the items list exactly. -/
theorem claim_C9_row_grouping (files : List FileThumb) (k : Nat) (hk : 1 ≤ k) :
    (rowsOf files k).flatten = files ∧
    (rowsOf files k).length = (files.length + k - 1) / k ∧
    (∀ r ∈ (rowsOf files k).dropLast, r.length = k) ∧
    (∀ L, (rowsOf files k).getLast? = some L →
      L.length = if files.length % k = 0 then k else files.length % k) :=
  ⟨rowsOf_flatten files k hk, rowsOf_length files k hk,
   rowsOf_dropLast_length files k hk, rowsOf_getLast_length files k hk⟩

/-- Witness for C9 at the concrete list `[A, B, C, D, E]` with 2 items per
row: the hypothesis `1 ≤ 2` is discharged concretely. -/
theorem claim_C9_row_grouping_witness :
    1 ≤ 2 ∧
    ((rowsOf [thumbA, thumbB, thumbC, thumbD, thumbE] 2).flatten =
        [thumbA, thumbB, thumbC, thumbD, thumbE] ∧
      (rowsOf [thumbA, thumbB, thumbC, thumbD, thumbE] 2).length =
        ([thumbA, thumbB, thumbC, thumbD, thumbE].length + 2 - 1) / 2 ∧
      (∀ r ∈ (rowsOf [thumbA, thumbB, thumbC, thumbD, thumbE] 2).dropLast,
        r.length = 2) ∧
      (∀ L, (rowsOf [thumbA, thumbB, thumbC, thumbD, thumbE] 2).getLast? = some L →
        L.length =
          if [thumbA, thumbB, thumbC, thumbD, thumbE].length % 2 = 0 then 2
          else [thumbA, thumbB, thumbC, thumbD, thumbE].length % 2)) :=
  ⟨by decide, claim_C9_row_grouping [thumbA, thumbB, thumbC, thumbD, thumbE] 2 (by decide)⟩

/-! ### Selection operations as a state machine (claim C3) -/

/-- One user-visible selection operation on the grid: a long-press, a tap
(toggle / open), the explicit exit button of the selection bar, the close of
the bulk-edit modal after changes, or the completion of a confirmed bulk
delete (whose per-hash outcomes are given by `ok`). -/
inductive SelOp where
  | longPress (file : FileThumb)
  | toggle (file : FileThumb) (index : Nat)
  | exit
  | bulkEditDone (removedTags : Finset String)
  | deleteDone (ok : String → Bool)

/-- Dispatch of a selection operation to the corresponding handler. -/
def applySel (s : GridState) : SelOp → GridState
  | .longPress f => s.handleLongPress f
  | .toggle f i => s.toggleSelection f i
  | .exit => s.exitSelectMode
  | .bulkEditDone rt => s.handleBulkEdit rt
  | .deleteDone ok => (s.handleDeleteConfirm ok).1

/-- The selection invariant: the select-mode flag is set exactly when the
selected set is non-empty. -/
def selInvariant (s : GridState) : Prop :=
  s.isSelectMode = true ↔ s.selectedFiles ≠ ∅

theorem selInvariant_applySel (s : GridState) (op : SelOp)
    (h : selInvariant s) : selInvariant (applySel s op) := by
  cases op with
  | longPress f =>
      simp only [applySel, GridState.handleLongPress]
      split
      · constructor
        · intro _
          simp
        · intro _
          rfl
      · exact h
  | toggle f i =>
      simp only [selInvariant, applySel, GridState.toggleSelection,
        GridState.openLightbox] at h ⊢
      split_ifs with h1 h2 h3 h4 <;>
        simp_all [Finset.card_eq_zero, Finset.insert_ne_empty] <;>
        rw [← Finset.card_eq_zero, Finset.card_erase_of_mem h2] <;>
        exact h3
  | exit =>
      simp only [applySel, GridState.exitSelectMode]
      constructor
      · intro hfalse
        exact absurd hfalse (by simp)
      · intro hne
        exact absurd rfl hne
  | bulkEditDone rt =>
      simp only [applySel, GridState.handleBulkEdit]
      constructor
      · intro hfalse
        exact absurd hfalse (by simp)
      · intro hne
        exact absurd rfl hne
  | deleteDone ok =>
      simp only [applySel, GridState.handleDeleteConfirm]
      split
      · simp only [GridState.exitSelectMode, GridState.handleFilesDeleted]
        constructor
        · intro hfalse
          exact absurd hfalse (by simp)
        · intro hne
          exact absurd rfl hne
      · exact h

theorem selInvariant_foldl (s : GridState) (h : selInvariant s)
    (ops : List SelOp) : selInvariant (ops.foldl applySel s) := by
  induction ops generalizing s with
  | nil => exact h
  | cons op rest ih =>
      exact ih (applySel s op) (selInvariant_applySel s op h)

/-- C3. Selection/mode invariant: starting from the Idle state (select mode
off, selection empty), after every sequence of selection operations —
long-press, tap toggle, explicit exit, or completion of a bulk action — the
select-mode flag is set exactly when the selected set is non-empty.
(Every prefix of a sequence is itself a sequence, so the invariant holds
immediately after each operation.) -/
theorem claim_C3_selection_mode_invariant (s : GridState)
    (hmode : s.isSelectMode = false) (hsel : s.selectedFiles = ∅)
    (ops : List SelOp) :
    (ops.foldl applySel s).isSelectMode = true ↔
      (ops.foldl applySel s).selectedFiles ≠ ∅ := by
  refine selInvariant_foldl s ?_ ops
  constructor
  · intro htrue
    rw [hmode] at htrue
    exact absurd htrue (by simp)
  · intro hne
    exact absurd hsel hne

/-- The grid state as created on mount: Idle, nothing loaded. -/
def idleState : GridState :=
  { tags := "cat", sort := "date_desc", files := [], loading := false,
    error := none, fetching := false, hasMore := false, nextCursor := none,
    isSelectMode := false, selectedFiles := ∅, lightboxOpen := false,
    lightboxIndex := 0 }

/-- A concrete operation sequence exercising long-press, toggles, bulk
actions and exit. -/
def demoOps : List SelOp :=
  [SelOp.longPress thumbA, SelOp.toggle thumbB 1, SelOp.toggle thumbA 0,
   SelOp.toggle thumbB 1, SelOp.longPress thumbC,
   SelOp.deleteDone (fun _ => false), SelOp.exit]

/-- Witness for C3: the Idle hypotheses hold of `idleState` by computation,
and the theorem applies to the concrete sequence `demoOps`. -/
theorem claim_C3_selection_mode_invariant_witness :
    idleState.isSelectMode = false ∧ idleState.selectedFiles = ∅ ∧
    ((demoOps.foldl applySel idleState).isSelectMode = true ↔
      (demoOps.foldl applySel idleState).selectedFiles ≠ ∅) :=
  ⟨rfl, rfl, claim_C3_selection_mode_invariant idleState rfl rfl demoOps⟩

/-! ### Sequences of loadMore calls (claims C4, C5, C7) -/

/-- A sequence of complete `fetchMoreItems` calls, each consuming the next
oracle response. -/
def runLoadMores (s : GridState) (rs : List FetchResult) : GridState :=
  rs.foldl (fun s r => (s.fetchMoreItems r).1) s

/-- The page appended by one `fetchMoreItems` call: the response's items when
a request was issued and it succeeded, nothing otherwise. -/
def pageOf (s : GridState) : FetchResult → List FileThumb
  | .ok resp => if s.fetchMoreStart.2 = true then resp.items else []
  | .err _ => []

/-- The concatenation, in fetch order, of the pages appended along a sequence
of `fetchMoreItems` calls. -/
def pagesAppended (s : GridState) : List FetchResult → List FileThumb
  | [] => []
  | r :: rest => pageOf s r ++ pagesAppended (s.fetchMoreItems r).1 rest

theorem fetchMoreStart_not_issued (s : GridState)
    (h : s.fetchMoreStart.2 = false) : s.fetchMoreStart.1 = s := by
  by_cases hc : s.tags = "" ∨ s.fetching = true ∨ s.hasMore = false ∨ s.nextCursor = none
  · simp [GridState.fetchMoreStart, hc]
  · exfalso
    simp only [GridState.fetchMoreStart, if_neg hc] at h
    exact absurd h (by simp)

theorem fetchMoreStart_issued (s : GridState)
    (h : s.fetchMoreStart.2 = true) :
    s.fetchMoreStart.1 = { s with fetching := true } := by
  by_cases hc : s.tags = "" ∨ s.fetching = true ∨ s.hasMore = false ∨ s.nextCursor = none
  · exfalso
    simp only [GridState.fetchMoreStart, if_pos hc] at h
    exact absurd h (by simp)
  · simp [GridState.fetchMoreStart, hc]

theorem fetchMoreItems_files (s : GridState) (r : FetchResult) :
    ((s.fetchMoreItems r).1).files = s.files ++ pageOf s r := by
  rcases hissued : s.fetchMoreStart.2 with _ | _
  · have h1 := fetchMoreStart_not_issued s hissued
    cases r <;> simp [GridState.fetchMoreItems, pageOf, hissued, h1]
  · have h1 := fetchMoreStart_issued s hissued
    cases r <;>
      simp [GridState.fetchMoreItems, pageOf, GridState.fetchMoreResume, hissued, h1]

/-- C4. Append-only growth: every successful `loadMore` replaces `items` by
the previous `items` followed by exactly the fetched page, in the returned
order; consequently any sequence of `loadMore` calls produces the initial
items followed by each page's results in fetch order, with no reordering of
existing items. -/
theorem claim_C4_append_only_growth (s : GridState) :
    (∀ resp : FileSearchResponse, s.fetchMoreStart.2 = true →
      ((s.fetchMoreItems (.ok resp)).1).files = s.files ++ resp.items) ∧
    (∀ rs : List FetchResult,
      (runLoadMores s rs).files = s.files ++ pagesAppended s rs) := by
  constructor
  · intro resp hissued
    rw [fetchMoreItems_files]
    simp [pageOf, hissued]
  · intro rs
    induction rs generalizing s with
    | nil => simp [runLoadMores, pagesAppended]
    | cons r rest ih =>
        show (runLoadMores ((s.fetchMoreItems r).1) rest).files = _
        rw [ih, fetchMoreItems_files, pagesAppended, List.append_assoc]

/-- Witness for C4: a concrete state in which the `loadMore` guard passes. -/
def moreReadyState : GridState :=
  { idleState with hasMore := true, nextCursor := some "c1",
                   files := [thumbA, thumbB] }

/-- Witness for C4 at `moreReadyState` and a one-item page. -/
theorem claim_C4_append_only_growth_witness :
    moreReadyState.fetchMoreStart.2 = true ∧
    ((moreReadyState.fetchMoreItems
        (.ok ⟨[thumbC], some "c2", true⟩)).1).files =
      moreReadyState.files ++ [thumbC] :=
  ⟨by decide,
   (claim_C4_append_only_growth moreReadyState).1 ⟨[thumbC], some "c2", true⟩
     (by decide)⟩

/-- C5. loadMore no-op guard and exhaustion permanence: whenever
`fetching` is set, `hasMore` is cleared (the state is exhausted) or the
cursor is absent, `fetchMoreItems` returns the state unchanged and issues no
request; consequently once exhausted the state stays exhausted and every
later `loadMore` of any sequence is a no-op, until the next `loadInitial`. -/
theorem claim_C5_loadMore_noop (s : GridState)
    (h : s.fetching = true ∨ s.hasMore = false ∨ s.nextCursor = none) :
    s.fetchMoreStart = (s, false) ∧
    (∀ r, s.fetchMoreItems r = (s, none)) ∧
    (s.hasMore = false → ∀ rs, runLoadMores s rs = s) := by
  have hguard : s.fetchMoreStart = (s, false) := by
    unfold GridState.fetchMoreStart
    rw [if_pos]
    tauto
  have hcall : ∀ r, s.fetchMoreItems r = (s, none) := by
    intro r
    unfold GridState.fetchMoreItems
    rw [hguard]
    simp
  refine ⟨hguard, hcall, ?_⟩
  intro hmore rs
  induction rs with
  | nil => rfl
  | cons r rest ih =>
      show runLoadMores ((s.fetchMoreItems r).1) rest = s
      rw [hcall r]
      exact ih

/-- A concrete exhausted state. -/
def exhaustedState : GridState :=
  { idleState with hasMore := false, nextCursor := some "c9",
                   files := [thumbA] }

/-- Witness for C5 at `exhaustedState` and a sequence of two responses. -/
theorem claim_C5_loadMore_noop_witness :
    (exhaustedState.fetching = true ∨ exhaustedState.hasMore = false ∨
      exhaustedState.nextCursor = none) ∧
    exhaustedState.hasMore = false ∧
    runLoadMores exhaustedState
        [.ok ⟨[thumbB], some "x", true⟩, .err "late failure"] = exhaustedState :=
  ⟨Or.inr (Or.inl rfl), rfl,
   (claim_C5_loadMore_noop exhaustedState (Or.inr (Or.inl rfl))).2.2 rfl
     [.ok ⟨[thumbB], some "x", true⟩, .err "late failure"]⟩

/-- C7. loadMore failure handling: when the fetch issued by a completed
`fetchMoreItems` call fails, the items, cursor and exhaustion flag are left
unchanged and the error is logged; and for a call made while no other is
outstanding, every code path (success, failure or guard) leaves the
`fetching` flag false after the call completes, so a later scroll can
retry. -/
theorem claim_C7_loadMore_failure (s : GridState) (hf : s.fetching = false)
    (m : String) :
    ((s.fetchMoreItems (.err m)).1).files = s.files ∧
    ((s.fetchMoreItems (.err m)).1).nextCursor = s.nextCursor ∧
    ((s.fetchMoreItems (.err m)).1).hasMore = s.hasMore ∧
    (s.fetchMoreStart.2 = true →
      (s.fetchMoreItems (.err m)).2 =
        some ("Failed to fetch more items: " ++ m)) ∧
    (∀ r, ((s.fetchMoreItems r).1).fetching = false) := by
  rcases hissued : s.fetchMoreStart.2 with _ | _
  · have h1 := fetchMoreStart_not_issued s hissued
    have hcall : ∀ r, s.fetchMoreItems r = (s, none) := by
      intro r
      simp [GridState.fetchMoreItems, hissued, h1]
    refine ⟨by rw [hcall], by rw [hcall], by rw [hcall], ?_, ?_⟩
    · intro hcontra
      exact absurd hcontra (by simp)
    · intro r
      rw [hcall r]
      exact hf
  · have h1 := fetchMoreStart_issued s hissued
    have hcall : ∀ r, s.fetchMoreItems r = ({ s with fetching := true }).fetchMoreResume r := by
      intro r
      simp [GridState.fetchMoreItems, hissued, h1]
    refine ⟨?_, ?_, ?_, ?_, ?_⟩
    · rw [hcall]
      simp [GridState.fetchMoreResume]
    · rw [hcall]
      simp [GridState.fetchMoreResume]
    · rw [hcall]
      simp [GridState.fetchMoreResume]
    · intro _
      rw [hcall]
      simp [GridState.fetchMoreResume]
    · intro r
      rw [hcall r]
      cases r <;> simp [GridState.fetchMoreResume]

/-- Witness for C7 at `moreReadyState` and a failing response. -/
theorem claim_C7_loadMore_failure_witness :
    moreReadyState.fetching = false ∧
    ((moreReadyState.fetchMoreItems (.err "timeout")).1).files =
      moreReadyState.files ∧
    (∀ r, ((moreReadyState.fetchMoreItems r).1).fetching = false) :=
  ⟨rfl, (claim_C7_loadMore_failure moreReadyState rfl "timeout").1,
   (claim_C7_loadMore_failure moreReadyState rfl "timeout").2.2.2.2⟩

/-! ### Exhaustion rule (claim C2) -/

/-- A state whose initial fetch is about to run (non-empty query). -/
def searchingState : GridState := { idleState with tags := "cat" }

/-- A response in which the backend reports `has_more = true` although the
continuation cursor is absent and the page holds a single item — fewer than
either page limit in use (the client requests `limit = 100`; the spec's
example uses `L = 50`). -/
def oddResp : FileSearchResponse := ⟨[thumbA], none, true⟩

/-- Counterexample to C2: the client copies the backend's `has_more` flag
verbatim; it does not recompute exhaustion as
`(returned cursor is absent) OR (returned count < L)`.  On `oddResp` the
formula demands `exhausted = true`, yet the state keeps `hasMore = true`. -/
theorem claim_C2_counterexample :
    (searchingState.fetchInitialResults (.ok oddResp)).hasMore = true ∧
    oddResp.next_cursor = none ∧
    oddResp.items.length < 50 ∧
    oddResp.items.length < 100 ∧
    ¬(((searchingState.fetchInitialResults (.ok oddResp)).hasMore = false) ↔
        (oddResp.next_cursor = none ∨ oddResp.items.length < 50)) := by
  decide

/-- C2 (amended). Exhaustion rule as implemented: after every successful
fetch performed by `loadInitial` or `loadMore`, the negation of `hasMore`
(the exhausted flag) equals the negation of the `has_more` flag of the
backend response — the client copies it verbatim and does not recompute it
from the returned cursor or item count. -/
theorem claim_C2_exhausted_from_response (s : GridState) (r : FileSearchResponse) :
    (s.fetchInitialStart.2 = true →
      (s.fetchInitialResults (.ok r)).hasMore = r.has_more) ∧
    (s.fetchMoreStart.2 = true →
      ((s.fetchMoreItems (.ok r)).1).hasMore = r.has_more) := by
  constructor
  · intro hissued
    simp [GridState.fetchInitialResults, hissued, GridState.fetchInitialResume]
  · intro hissued
    have h1 := fetchMoreStart_issued s hissued
    simp [GridState.fetchMoreItems, hissued, h1, GridState.fetchMoreResume]

/-- Witness for the amended C2 at a concrete state and response. -/
theorem claim_C2_exhausted_from_response_witness :
    searchingState.fetchInitialStart.2 = true ∧
    (searchingState.fetchInitialResults
        (.ok ⟨[thumbA], some "c1", false⟩)).hasMore = false :=
  ⟨by decide,
   (claim_C2_exhausted_from_response searchingState
      ⟨[thumbA], some "c1", false⟩).1 (by decide)⟩

/-! ### loadInitial failure (claim C6) -/

/-- A state holding results of an earlier query, about to reload. -/
def loadedState : GridState :=
  { idleState with files := [thumbA, thumbB], hasMore := true,
                   nextCursor := some "c0" }

/-- Counterexample to C6: `fetchInitialResults` clears `files` before the
fetch, so after a failed fetch the items the view held before the call are
gone — the list is empty, not intact. -/
theorem claim_C6_counterexample :
    loadedState.files = [thumbA, thumbB] ∧
    (loadedState.fetchInitialResults (.err "network down")).error =
      some "network down" ∧
    (loadedState.fetchInitialResults (.err "network down")).files = [] ∧
    (loadedState.fetchInitialResults (.err "network down")).files ≠
      loadedState.files := by
  decide

/-- C6 (amended). loadInitial failure: when the fetch issued by
`fetchInitialResults` fails, an error state is surfaced, `loading` is reset,
and the items list is empty — it was cleared when the call started, so no
partial or stale data is shown, but the items held before the call do not
survive. -/
theorem claim_C6_loadInitial_failure (s : GridState) (m : String)
    (h : s.fetchInitialStart.2 = true) :
    (s.fetchInitialResults (.err m)).error = some m ∧
    (s.fetchInitialResults (.err m)).files = [] ∧
    (s.fetchInitialResults (.err m)).loading = false ∧
    (s.fetchInitialResults (.err m)).nextCursor = none ∧
    (s.fetchInitialResults (.err m)).hasMore = false := by
  by_cases hc : s.tags = ""
  · exfalso
    simp [GridState.fetchInitialStart, hc] at h
  · simp [GridState.fetchInitialResults, GridState.fetchInitialStart, hc,
          GridState.fetchInitialResume]

/-- Witness for the amended C6 at a concrete state. -/
theorem claim_C6_loadInitial_failure_witness :
    loadedState.fetchInitialStart.2 = true ∧
    (loadedState.fetchInitialResults (.err "boom")).error = some "boom" ∧
    (loadedState.fetchInitialResults (.err "boom")).files = [] :=
  ⟨by decide,
   (claim_C6_loadInitial_failure loadedState "boom" (by decide)).1,
   (claim_C6_loadInitial_failure loadedState "boom" (by decide)).2.1⟩

/-! ### Stale loadMore response after a newer loadInitial (claim C1)

`SearchGrid.svelte` carries no generation counter: the continuation of
`fetchMoreItems` that runs when its response arrives reads and writes
whatever the component state is at that moment.  The event-loop interleaving
below replays the segments in arrival order. -/

/-- Generation-N state: the query `"cat"` has loaded its first page and has a
continuation cursor. -/
def genNState : GridState :=
  { idleState with files := [thumbA, thumbB], hasMore := true,
                   nextCursor := some "c1" }

/-- The response of the generation-N+1 `loadInitial` for the new query. -/
def freshResp : FileSearchResponse := ⟨[thumbD], some "d1", true⟩

/-- The late response to the generation-N `loadMore`. -/
def staleResp : FileSearchResponse := ⟨[thumbC], some "c2", false⟩

/-- The interleaved run: `fetchMoreItems` starts (request in flight), the
query changes to `"dog"`, `fetchInitialResults` starts and its response
arrives, and only then does the stale generation-N response arrive and its
continuation run. -/
def staleRunFinal : GridState :=
  (((({ genNState.fetchMoreStart.1 with
          tags := "dog" }).fetchInitialStart.1).fetchInitialResume
      (.ok freshResp)).fetchMoreResume (.ok staleResp)).1

/-- C1, evaluated at the failing interleaving: both requests are really
issued, the generation-N+1 state holds exactly `[thumbD]`, and the stale
generation-N response then mutates it — its page is appended and
`cursor`/`exhausted` are overwritten by the stale values.  The code lacks
the generation-tag mechanism the specification requires, so the claimed
stale-response rejection does not hold. -/
theorem claim_C1_stale_response_mutates_new_state :
    genNState.fetchMoreStart.2 = true ∧
    ({ genNState.fetchMoreStart.1 with tags := "dog" }).fetchInitialStart.2 = true ∧
    ((({ genNState.fetchMoreStart.1 with
          tags := "dog" }).fetchInitialStart.1).fetchInitialResume
        (.ok freshResp)).files = [thumbD] ∧
    staleRunFinal.files = [thumbD, thumbC] ∧
    staleRunFinal.files ≠ [thumbD] ∧
    staleRunFinal.nextCursor = some "c2" ∧
    staleRunFinal.hasMore = false := by
  decide

/-! ### Tag-removal invalidation pruning (claim C8) -/

/-- The pruning rule as the specification's scenario words it: exactly the
selected items from which the conflicting search tag was actually removed
(the set `removedFrom`) disappear from the visible list, and the other
selected items remain in place.  Stated from the spec's words, for
comparison with `GridState.handleBulkEdit`. -/
def specTagRemovalPrune (files : List FileThumb) (removedFrom : Finset String) :
    List FileThumb :=
  files.filter (fun t => t.sha256_hash ∉ removedFrom)

/-- A search for `"cat"` showing three items, with two of them selected. -/
def bulkEditState : GridState :=
  { idleState with files := [thumbA, thumbB, thumbC], isSelectMode := true,
                   selectedFiles := {"hashA", "hashB"} }

/-- Counterexample to C8: take the spec's situation where the conflicting
tag `"cat"` was removed from only a subset of the selected items (here
`{hashA}`, with selected `{hashA, hashB}`).  The spec demands that exactly
that subset be pruned, leaving `thumbB` in place; the code prunes every
selected item whenever any removed tag conflicts with the search, so
`thumbB` disappears too. -/
theorem claim_C8_counterexample :
    thumbB.sha256_hash ∈ bulkEditState.selectedFiles ∧
    thumbB.sha256_hash ∉ ({"hashA"} : Finset String) ∧
    specTagRemovalPrune bulkEditState.files {"hashA"} = [thumbB, thumbC] ∧
    (bulkEditState.handleBulkEdit {"cat"}).files = [thumbC] ∧
    (bulkEditState.handleBulkEdit {"cat"}).files ≠
      specTagRemovalPrune bulkEditState.files {"hashA"} ∧
    thumbB ∉ (bulkEditState.handleBulkEdit {"cat"}).files := by
  decide

/-- C8 (amended). Tag-removal invalidation pruning as implemented: when any
tag removed by the bulk edit occurs among the current search tags, ALL
currently selected items are pruned from the visible list (regardless of
which items actually carried the tag); when no removed tag conflicts, the
visible list is untouched; the pruned list is a sublist of the original
(no reordering); and in every case the selection is cleared and select mode
exited. -/
theorem claim_C8_bulk_edit_pruning (s : GridState) (removedTags : Finset String) :
    ((GridState.currentSearchTags s.tags).any (fun t => t ∈ removedTags) = true →
      ∀ x, x ∈ (s.handleBulkEdit removedTags).files ↔
        x ∈ s.files ∧ x.sha256_hash ∉ s.selectedFiles) ∧
    ((GridState.currentSearchTags s.tags).any (fun t => t ∈ removedTags) = false →
      (s.handleBulkEdit removedTags).files = s.files) ∧
    (s.handleBulkEdit removedTags).files.Sublist s.files ∧
    (s.handleBulkEdit removedTags).selectedFiles = ∅ ∧
    (s.handleBulkEdit removedTags).isSelectMode = false := by
  refine ⟨?_, ?_, ?_, rfl, rfl⟩
  · intro hconf x
    simp [GridState.handleBulkEdit, hconf]
  · intro hconf
    simp [GridState.handleBulkEdit, hconf]
  · by_cases hconf : (GridState.currentSearchTags s.tags).any (fun t => t ∈ removedTags) = true
    · simp only [GridState.handleBulkEdit, hconf, if_pos]
      exact List.filter_sublist s.files
    · simp only [GridState.handleBulkEdit, eq_false_of_ne_true hconf, if_neg,
                 Bool.false_eq_true, not_false_eq_true]
      exact List.Sublist.refl s.files

/-- Witness for the amended C8 at the concrete conflicting bulk edit. -/
theorem claim_C8_bulk_edit_pruning_witness :
    (GridState.currentSearchTags bulkEditState.tags).any
        (fun t => t ∈ ({"cat"} : Finset String)) = true ∧
    (∀ x, x ∈ (bulkEditState.handleBulkEdit {"cat"}).files ↔
      x ∈ bulkEditState.files ∧
        x.sha256_hash ∉ bulkEditState.selectedFiles) :=
  ⟨by decide,
   (claim_C8_bulk_edit_pruning bulkEditState {"cat"}).1 (by decide)⟩

/-! ### Bulk-delete failure (claim C10) -/

/-- C10. Bulk-delete failure leaves client state untouched: if any
individual delete in the joined bulk delete rejects, the handler's state is
exactly the input state — no item removed from the items list, the selected
set and select mode intact (even for ids whose server-side deletes
succeeded) — and a single aggregate error is surfaced. -/
theorem claim_C10_bulk_delete_failure (s : GridState) (ok : String → Bool)
    (h : ∃ x ∈ s.selectedFiles, ok x = false) :
    s.handleDeleteConfirm ok = (s, some "Failed to delete some files") := by
  unfold GridState.handleDeleteConfirm
  rw [if_neg]
  intro hall
  obtain ⟨x, hx, hfail⟩ := h
  rw [hall x hx] at hfail
  exact absurd hfail (by simp)

/-- A concrete delete oracle in which `hashB`'s delete rejects. -/
def partialDeleteOk (h : String) : Bool := h == "hashA"

/-- Witness for C10 at `bulkEditState`: `hashB` is selected and its delete
fails, so the handler returns the state unchanged with the aggregate
error. -/
theorem claim_C10_bulk_delete_failure_witness :
    (∃ x ∈ bulkEditState.selectedFiles, partialDeleteOk x = false) ∧
    bulkEditState.handleDeleteConfirm partialDeleteOk =
      (bulkEditState, some "Failed to delete some files") :=
  ⟨by decide, claim_C10_bulk_delete_failure bulkEditState partialDeleteOk (by decide)⟩

end BijutsuBase
